import Mathlib

/-!
# Voice chatbot page (`src/pages/Index.jsx`)

A shallow embedding of the `Index` component: its five `useState` cells, the
handlers `handleInputChange`, `handleSendMessage`, `speak`, `handleMicClick`,
`startListening`, `stopListening`, the `onresult` / `onend` callbacks and the
`disabled` props of the three footer controls.

Conventions of the embedding.

* A handler is a list of `Action`s in program order: the `setX` calls of the
  component and the calls to the outside world (`fetch`, `toast`,
  `speechSynthesis.speak`, `recognition.start`).  `exec` applies them to a
  `State` that holds the state cells together with a log of the outside calls.
* `handleSendMessage` is `async`.  Its synchronous prefix is `handleSendMessage`;
  every `await` is a `Pending` continuation that `resume` continues when the
  awaited promise settles with a `Signal`.
* A handler closes over the state of the render that created it.  The captured
  `inputText` is therefore an explicit argument of `handleSendMessage` and of
  `onresult`.
* Text is `String`; a chunk read from the body is represented by the text that
  `decoder.decode(value)` yields for it.
* What lies outside the source is a parameter: whether the class-level `abort`
  of line 118 is callable (`Browser`), and whether the component library keeps a
  control whose `disabled` prop is true from firing (`Toolkit`).
-/

namespace VoiceChat

/-! ## Data -/

/-- An element of the `messages` array: `{ text, isUser }`. -/
structure Message where
  text : String
  isUser : Bool
  deriving DecidableEq

/-- The argument object of `toast(...)` (lines 69-75). -/
structure ToastOptions where
  title : String
  description : String
  status : String
  duration : Nat
  isClosable : Bool
  deriving DecidableEq

/-- The arguments of the `fetch` call (lines 30-36).  `message` is the value of
the only field of the object handed to `JSON.stringify` for the body. -/
structure FetchCall where
  url : String
  method : String
  contentType : String
  message : String
  deriving DecidableEq

/-- The five state cells of the component (lines 6-10) and the calls made to the
outside world so far, oldest first. -/
structure State where
  messages : List Message
  inputText : String
  isListening : Bool
  isSpeaking : Bool
  isLoading : Bool
  fetches : List FetchCall
  toasts : List ToastOptions
  spoken : List String
  started : Nat
  deriving DecidableEq

/-- The state at mount: the `useState` initial values, nothing called yet. -/
def State.initial : State :=
  { messages := [], inputText := "", isListening := false, isSpeaking := false,
    isLoading := false, fetches := [], toasts := [], spoken := [], started := 0 }

/-- What the page runs on: whether `window.webkitSpeechRecognition.abort`, a
property looked up on the recognition class itself (line 118), is a callable
function.  When it is not, the call throws a `TypeError`. -/
structure Browser where
  classAbortCallable : Bool
  deriving DecidableEq

/-- What the component library does with the `disabled` prop that lines 160-162
hand to its `Input` and `IconButton`: whether a control rendered with
`disabled` true keeps its `onChange` / `onClick` from firing.  The library is
not part of the page's source, so both behaviours are modelled. -/
structure Toolkit where
  inputHonoursDisabled : Bool
  buttonHonoursDisabled : Bool
  deriving DecidableEq

/-! ## `String.prototype.trim` -/

/-- The code points `trim()` strips: ECMAScript WhiteSpace and LineTerminator. -/
def isTrimChar (c : Char) : Bool :=
  let n := c.toNat
  n == 0x09 || n == 0x0A || n == 0x0B || n == 0x0C || n == 0x0D || n == 0x20
    || n == 0xA0 || n == 0x1680 || (0x2000 ≤ n && n ≤ 0x200A)
    || n == 0x2028 || n == 0x2029 || n == 0x202F || n == 0x205F || n == 0x3000
    || n == 0xFEFF

/-- `s.trim()`. -/
def jsTrim (s : String) : String :=
  ⟨((s.data.dropWhile isTrimChar).reverse.dropWhile isTrimChar).reverse⟩

/-! ## The two `setMessages` updaters -/

/-- The updater of line 25: `(prevMessages) => [...prevMessages, newMessage]`. -/
def appendMessage (newMessage : Message) (prevMessages : List Message) : List Message :=
  prevMessages ++ [newMessage]

/-- The updater of lines 57-64, for the running buffer `assistantMessage`. -/
def chunkUpdate (assistantMessage : String) (prevMessages : List Message) : List Message :=
  match prevMessages[prevMessages.length - 1]? with
  | some lastMessage =>
    if !lastMessage.isUser then
      prevMessages.mapIdx fun idx msg =>
        if idx = prevMessages.length - 1 then { msg with text := assistantMessage } else msg
    else
      prevMessages ++ [{ text := assistantMessage, isUser := false }]
  | none => prevMessages ++ [{ text := assistantMessage, isUser := false }]

/-! ## Actions -/

/-- One statement with an effect, as the handlers execute them. -/
inductive Action where
  | setMessagesAppend (newMessage : Message)
  | setMessagesChunk (assistantMessage : String)
  | setInputText (value : String)
  | setIsListening (value : Bool)
  | setIsSpeaking (value : Bool)
  | setIsLoading (value : Bool)
  | fetch (call : FetchCall)
  | toast (options : ToastOptions)
  | speechSynthesisSpeak (text : String)
  | recognitionStart
  deriving DecidableEq

/-- The effect of one action on the state cells and the call log. -/
def applyAction (s : State) : Action → State
  | .setMessagesAppend newMessage => { s with messages := appendMessage newMessage s.messages }
  | .setMessagesChunk assistantMessage =>
      { s with messages := chunkUpdate assistantMessage s.messages }
  | .setInputText value => { s with inputText := value }
  | .setIsListening value => { s with isListening := value }
  | .setIsSpeaking value => { s with isSpeaking := value }
  | .setIsLoading value => { s with isLoading := value }
  | .fetch call => { s with fetches := s.fetches ++ [call] }
  | .toast options => { s with toasts := s.toasts ++ [options] }
  | .speechSynthesisSpeak text => { s with spoken := s.spoken ++ [text] }
  | .recognitionStart => { s with started := s.started + 1 }

/-- Runs actions in program order. -/
def exec (s : State) (actions : List Action) : State :=
  actions.foldl applyAction s

/-! ## Handlers -/

/-- A point where `handleSendMessage` is suspended: at `await fetch(...)`
(line 30) or at `await reader.read()` (line 53) with the buffer built so far. -/
inductive Pending where
  | awaitingResponse
  | reading (assistantMessage : String)
  deriving DecidableEq

/-- What a stretch of `handleSendMessage` between two suspensions did, and where
it is suspended next (`none`: the function has returned). -/
structure Stretch where
  actions : List Action
  next : Option Pending
  deriving DecidableEq

/-- Line 18-20: `handleInputChange`. -/
def handleInputChange (value : String) : List Action :=
  [.setInputText value]

/-- Lines 22-36: `handleSendMessage` up to `await fetch(...)`, for the
`inputText` that the closure holds. -/
def handleSendMessage (inputText : String) : Stretch :=
  if jsTrim inputText ≠ "" then
    let newMessage : Message := { text := inputText, isUser := true }
    { actions :=
        [ .setMessagesAppend newMessage,
          .setInputText "",
          .setIsLoading true,
          .fetch { url := "/api/chatbot", method := "POST",
                   contentType := "application/json", message := inputText } ],
      next := some .awaitingResponse }
  else
    { actions := [], next := none }

/-- The `fetch` arguments of lines 30-36 for the draft the closure holds. -/
def chatRequest (inputText : String) : FetchCall :=
  { url := "/api/chatbot", method := "POST", contentType := "application/json",
    message := inputText }

/-- Lines 82-89: `speak`, up to its return. -/
def speak (text : String) : List Action :=
  [.setIsSpeaking true, .speechSynthesisSpeak text]

/-- Lines 86-88: the `onend` callback of an utterance. -/
def utteranceOnEnd : List Action :=
  [.setIsSpeaking false]

/-- Lines 68-76: the `catch` block, for an error whose `message` is given. -/
def catchBlock (message : String) : List Action :=
  [.toast { title := "Error", description := message, status := "error",
            duration := 5000, isClosable := true }]

/-- What an awaited promise of `handleSendMessage` settles with. -/
inductive Signal where
  | fetchRejected (message : String)
  | response (ok : Bool) (hasBody : Bool)
  | read (value : Option String) (done : Bool)
  | readRejected (message : String)
  deriving DecidableEq

/-- Line 55: `decoder.decode(value)`; `decode(undefined)` is the empty string. -/
def decode (value : Option String) : String :=
  value.getD ""

/-- Lines 38-78: `handleSendMessage` from a suspension to the next one.  A signal
that does not belong to the suspended `await` leaves the function suspended. -/
def resume : Pending → Signal → Stretch
  | .awaitingResponse, .fetchRejected message =>
      { actions := catchBlock message ++ [.setIsLoading false], next := none }
  | .awaitingResponse, .response ok hasBody =>
      if !ok then
        { actions := catchBlock "Something went wrong!" ++ [.setIsLoading false], next := none }
      else if !hasBody then
        { actions := [], next := none }
      else
        { actions := [], next := some (.reading "") }
  | .reading assistantMessage, .read value doneReading =>
      let chunkValue := decode value
      let assistantMessage := assistantMessage ++ chunkValue
      if doneReading then
        { actions := [.setMessagesChunk assistantMessage] ++ speak assistantMessage
            ++ [.setIsLoading false],
          next := none }
      else
        { actions := [.setMessagesChunk assistantMessage],
          next := some (.reading assistantMessage) }
  | .reading _, .readRejected message =>
      { actions := catchBlock message ++ [.setIsLoading false], next := none }
  | p, _ => { actions := [], next := some p }

/-- Lines 116-119: `stopListening`: the actions done, and whether the function
returned (`true`) or threw at the `abort` call (`false`). -/
def stopListening (b : Browser) : List Action × Bool :=
  ([.setIsListening false], b.classAbortCallable)

/-- Lines 99-114: `startListening`. -/
def startListening : List Action :=
  [.setIsListening true, .recognitionStart]

/-- Lines 106-111: the `onresult` callback, for the `inputText` held by the
`handleSendMessage` closure of the render in which `startListening` ran. -/
def onresult (b : Browser) (inputText : String) (transcript : String) : Stretch :=
  let stop := stopListening b
  if stop.2 then
    let send := handleSendMessage inputText
    { actions := [.setInputText transcript] ++ stop.1 ++ send.actions, next := send.next }
  else
    { actions := [.setInputText transcript] ++ stop.1, next := none }

/-! ## The rendered controls (lines 160-162) -/

/-- The `disabled` prop of the `Input`. -/
def inputDisabled (s : State) : Bool := s.isListening || s.isSpeaking

/-- The `disabled` prop of the mic `IconButton`. -/
def micDisabled (s : State) : Bool := s.isSpeaking

/-- The `disabled` prop of the send `IconButton`. -/
def sendDisabled (s : State) : Bool := s.isListening || s.isSpeaking || s.isLoading

/-! ## One invocation of `handleSendMessage` on its own -/

/-- Continues a suspended invocation with the signals, in order.  Signals that
arrive after the function has returned find nothing to continue. -/
def feed (s : State) : Option Pending → List Signal → State × Option Pending
  | p, [] => (s, p)
  | none, _ :: _ => (s, none)
  | some p, signal :: rest =>
      let r := resume p signal
      feed (exec s r.actions) r.next rest

/-- The send control's `handleSendMessage` invoked in state `s` (its closure
holds `s.inputText`), followed by the signals its awaits settle with. -/
def sendThen (s : State) (signals : List Signal) : State × Option Pending :=
  let r := handleSendMessage s.inputText
  feed (exec s r.actions) r.next signals

/-- The reads that deliver the given chunks: `{ value, done: false }` each. -/
def chunkReads (chunks : List String) : List Signal :=
  chunks.map fun c => .read (some c) false

/-- The read at the end of the stream: `{ value: undefined, done: true }`. -/
def endRead : Signal := .read none true

/-- How a chat request can turn out. -/
inductive Outcome where
  | networkError (message : String)
  | failureStatus (hasBody : Bool)
  | noBody
  | stream (chunks : List String)
  deriving DecidableEq

/-- The signals an outcome delivers to the invocation. -/
def Outcome.signals : Outcome → List Signal
  | .networkError message => [.fetchRejected message]
  | .failureStatus hasBody => [.response false hasBody]
  | .noBody => [.response true false]
  | .stream chunks => [.response true true] ++ chunkReads chunks ++ [endRead]

/-! ## The component as an event-driven machine -/

/-- The page together with what is outstanding: the suspended invocations of
`handleSendMessage` (each one a chat request in flight), the `inputText` held by
the `onresult` closure of every recognition started, and the number of
utterances that have ended. -/
structure Machine where
  page : State
  pending : List Pending
  recognitions : List String
  ended : Nat
  deriving DecidableEq

/-- The machine at mount. -/
def Machine.initial : Machine :=
  { page := State.initial, pending := [], recognitions := [], ended := 0 }

/-- What can happen to the page. -/
inductive Event where
  | typing (value : String)
  | sendClick
  | micClick
  | result (recognition : Nat) (transcript : String)
  | settle (invocation : Nat) (signal : Signal)
  | utteranceEnd
  deriving DecidableEq

/-- Runs a stretch that starts an invocation of `handleSendMessage`. -/
def Machine.launch (m : Machine) (r : Stretch) : Machine :=
  { m with page := exec m.page r.actions, pending := m.pending ++ r.next.toList }

/-- One event.  A control whose `disabled` prop is true delivers its event unless
the library honours the prop; a result or a settlement for something that is
not outstanding does nothing. -/
def step (b : Browser) (k : Toolkit) (m : Machine) : Event → Machine
  | .typing value =>
      if inputDisabled m.page && k.inputHonoursDisabled then m
      else { m with page := exec m.page (handleInputChange value) }
  | .sendClick =>
      if sendDisabled m.page && k.buttonHonoursDisabled then m
      else m.launch (handleSendMessage m.page.inputText)
  | .micClick =>
      if micDisabled m.page && k.buttonHonoursDisabled then m
      else if m.page.isListening then
        { m with page := exec m.page (stopListening b).1 }
      else
        { m with page := exec m.page startListening,
                 recognitions := m.recognitions ++ [m.page.inputText] }
  | .result recognition transcript =>
      match m.recognitions[recognition]? with
      | none => m
      | some inputText => m.launch (onresult b inputText transcript)
  | .settle invocation signal =>
      match m.pending[invocation]? with
      | none => m
      | some p =>
          let r := resume p signal
          { m with page := exec m.page r.actions,
                   pending := match r.next with
                     | some q => m.pending.set invocation q
                     | none => m.pending.eraseIdx invocation }
  | .utteranceEnd =>
      if m.ended < m.page.spoken.length then
        { m with page := exec m.page utteranceOnEnd, ended := m.ended + 1 }
      else m

/-- Runs the events in order. -/
def run (b : Browser) (k : Toolkit) (m : Machine) (events : List Event) : Machine :=
  events.foldl (step b k) m

/-- Whether the event is kept from entering `handleSendMessage` while `isLoading`
is true.  A send click is when the control does not deliver it or `isLoading` is
false; a transcript result is when its handler stops at the `abort` call or
`isLoading` is false; no other event calls `handleSendMessage`. -/
def gated (b : Browser) (k : Toolkit) (m : Machine) : Event → Bool
  | .sendClick => (sendDisabled m.page && k.buttonHonoursDisabled) || !m.page.isLoading
  | .result _ _ => !b.classAbortCallable || !m.page.isLoading
  | _ => true

/-- Whether every event of the run is `gated` in the state it arrives in. -/
def gatedRun (b : Browser) (k : Toolkit) (m : Machine) : List Event → Bool
  | [] => true
  | e :: es => gated b k m e && gatedRun b k (step b k m e) es

/-- The request gate: at most one invocation of `handleSendMessage` is
suspended, and while one is, `isLoading` is true. -/
def SingleFlight (m : Machine) : Prop :=
  m.pending.length ≤ 1 ∧ (m.pending ≠ [] → m.page.isLoading = true)

/-! ## Lemmas on `trim` and on the updaters -/

theorem jsTrim_eq_empty_of_all (s : String) (h : ∀ c ∈ s.data, isTrimChar c = true) :
    jsTrim s = "" := by
  have h1 : s.data.dropWhile isTrimChar = [] := by
    rw [List.dropWhile_eq_nil_iff]
    exact h
  simp only [jsTrim, h1, List.reverse_nil, List.dropWhile_nil]

theorem chunkUpdate_nil (assistantMessage : String) :
    chunkUpdate assistantMessage [] = [{ text := assistantMessage, isUser := false }] := by
  simp [chunkUpdate]

theorem chunkUpdate_concat_user (assistantMessage : String) (init : List Message)
    (last : Message) (h : last.isUser = true) :
    chunkUpdate assistantMessage (init ++ [last])
      = init ++ [last] ++ [{ text := assistantMessage, isUser := false }] := by
  simp [chunkUpdate, h]

theorem mapIdx_of_lt (f : Nat → Message → Message) (l : List Message)
    (h : ∀ i, i < l.length → ∀ m, f i m = m) : l.mapIdx f = l := by
  rw [List.mapIdx_eq_iff]
  intro i
  by_cases hi : i < l.length
  · simp [List.getElem?_eq_getElem hi, h i hi]
  · simp [List.getElem?_eq_none (Nat.le_of_not_lt hi)]

theorem chunkUpdate_concat_assistant (assistantMessage : String) (init : List Message)
    (last : Message) (h : last.isUser = false) :
    chunkUpdate assistantMessage (init ++ [last])
      = init ++ [{ text := assistantMessage, isUser := false }] := by
  have hmap : init.mapIdx (fun idx msg =>
      if idx = init.length then { msg with text := assistantMessage } else msg) = init := by
    apply mapIdx_of_lt
    intro i hi m
    simp [Nat.ne_of_lt hi]
  simp [chunkUpdate, h, List.mapIdx_append, hmap]

theorem eq_nil_or_concat (l : List Message) :
    l = [] ∨ ∃ init last, l = init ++ [last] := by
  rcases List.eq_nil_or_concat l with h | ⟨init, last, h⟩
  · exact Or.inl h
  · exact Or.inr ⟨init, last, by simpa using h⟩

/-! ## The send guard and the synchronous prefix -/

/-- C7.  When the draft is empty or made only of characters that `trim()` strips,
`handleSendMessage` performs no action and does not suspend; whatever signals
follow, the state (messages, draft, the three flags and the log of requests) is
the state it was invoked in. -/
theorem blank_draft_is_noop (s : State) (h : ∀ c ∈ s.inputText.data, isTrimChar c = true) :
    (handleSendMessage s.inputText).actions = [] ∧
    (handleSendMessage s.inputText).next = none ∧
    ∀ signals, sendThen s signals = (s, none) := by
  have ht := jsTrim_eq_empty_of_all s.inputText h
  have hr : handleSendMessage s.inputText = { actions := [], next := none } := by
    simp [handleSendMessage, ht]
  refine ⟨by rw [hr], by rw [hr], ?_⟩
  intro signals
  cases signals <;> simp [sendThen, hr, exec, feed]

/-- A draft of a space, a tab and a line feed: the state is left as it was. -/
theorem blank_draft_is_noop_witness :
    sendThen { State.initial with inputText := " \t\n", messages := [⟨"Hi", false⟩] }
        [.response true true, .read (some "x") false]
      = ({ State.initial with inputText := " \t\n", messages := [⟨"Hi", false⟩] }, none) :=
  (blank_draft_is_noop { State.initial with inputText := " \t\n", messages := [⟨"Hi", false⟩] }
    (by decide)).2.2 _

theorem handleSendMessage_of_nonblank (inputText : String) (h : jsTrim inputText ≠ "") :
    handleSendMessage inputText =
      { actions := [.setMessagesAppend { text := inputText, isUser := true },
                    .setInputText "", .setIsLoading true, .fetch (chatRequest inputText)],
        next := some .awaitingResponse } := by
  simp [handleSendMessage, h, chatRequest]

/-- C2.  For a draft `d` whose trimmed text is non-empty (whatever `isLoading`
is), `handleSendMessage` performs, in this order, the append of
`{ text: d, isUser: true }`, `setInputText("")`, `setIsLoading(true)` and one
`fetch` of `POST /api/chatbot` with body `{ message: d }`, then waits for the
response.  Afterwards `messages` is the old sequence followed by that message,
the draft is empty, `isLoading` is true and the request log has grown by that one
request; just before the `fetch` the message is already appended and no request
has been issued. -/
theorem send_appends_then_requests (s : State) (h : jsTrim s.inputText ≠ "") :
    (handleSendMessage s.inputText).actions =
      [ .setMessagesAppend { text := s.inputText, isUser := true },
        .setInputText "", .setIsLoading true,
        .fetch { url := "/api/chatbot", method := "POST",
                 contentType := "application/json", message := s.inputText } ] ∧
    (handleSendMessage s.inputText).next = some .awaitingResponse ∧
    (exec s (handleSendMessage s.inputText).actions).messages
      = s.messages ++ [{ text := s.inputText, isUser := true }] ∧
    (exec s (handleSendMessage s.inputText).actions).inputText = "" ∧
    (exec s (handleSendMessage s.inputText).actions).isLoading = true ∧
    (exec s (handleSendMessage s.inputText).actions).fetches
      = s.fetches ++ [{ url := "/api/chatbot", method := "POST",
                        contentType := "application/json", message := s.inputText }] ∧
    (exec s ((handleSendMessage s.inputText).actions.take 3)).messages
      = s.messages ++ [{ text := s.inputText, isUser := true }] ∧
    (exec s ((handleSendMessage s.inputText).actions.take 3)).fetches = s.fetches := by
  rw [handleSendMessage_of_nonblank s.inputText h]
  simp [exec, applyAction, appendMessage, chatRequest]

/-- The draft "Hello" sent from the initial state. -/
theorem send_appends_then_requests_witness :
    (exec { State.initial with inputText := "Hello" } (handleSendMessage "Hello").actions).messages
        = [{ text := "Hello", isUser := true }] ∧
    (exec { State.initial with inputText := "Hello" } (handleSendMessage "Hello").actions).fetches
        = [{ url := "/api/chatbot", method := "POST", contentType := "application/json",
             message := "Hello" }] :=
  have w := send_appends_then_requests { State.initial with inputText := "Hello" } (by decide)
  ⟨w.2.2.1, w.2.2.2.2.2.1⟩

/-! ## The updaters never delete and touch only the last element -/

/-- C8.  The chunk update never shortens the sequence and leaves every element
but the last as it was.  When the last element is an assistant message the
length is kept and only that element changes: its text becomes the buffer and
its `isUser` stays false.  When the sequence is empty or ends in a user message
one assistant message is appended and every element is kept.  The user-message
append keeps every element and adds one at the end. -/
theorem updaters_frame (assistantMessage : String) (prevMessages : List Message) :
    prevMessages.length ≤ (chunkUpdate assistantMessage prevMessages).length ∧
    (∀ i, i + 1 < prevMessages.length →
      (chunkUpdate assistantMessage prevMessages)[i]? = prevMessages[i]?) ∧
    (∀ init last, prevMessages = init ++ [last] → last.isUser = false →
      (chunkUpdate assistantMessage prevMessages).length = prevMessages.length ∧
      chunkUpdate assistantMessage prevMessages
        = init ++ [{ text := assistantMessage, isUser := false }]) ∧
    ((prevMessages = [] ∨ ∃ init last, prevMessages = init ++ [last] ∧ last.isUser = true) →
      chunkUpdate assistantMessage prevMessages
        = prevMessages ++ [{ text := assistantMessage, isUser := false }]) ∧
    (∀ newMessage,
      appendMessage newMessage prevMessages = prevMessages ++ [newMessage] ∧
      prevMessages.length ≤ (appendMessage newMessage prevMessages).length ∧
      ∀ i, i < prevMessages.length →
        (appendMessage newMessage prevMessages)[i]? = prevMessages[i]?) := by
  have hA : ∀ init last, prevMessages = init ++ [last] → last.isUser = false →
      chunkUpdate assistantMessage prevMessages
        = init ++ [{ text := assistantMessage, isUser := false }] := by
    intro init last hp hl
    rw [hp]
    exact chunkUpdate_concat_assistant assistantMessage init last hl
  have hU : (prevMessages = [] ∨ ∃ init last, prevMessages = init ++ [last] ∧ last.isUser = true) →
      chunkUpdate assistantMessage prevMessages
        = prevMessages ++ [{ text := assistantMessage, isUser := false }] := by
    rintro (hp | ⟨init, last, hp, hl⟩)
    · rw [hp]; exact chunkUpdate_nil assistantMessage
    · rw [hp]; exact chunkUpdate_concat_user assistantMessage init last hl
  have hcases : chunkUpdate assistantMessage prevMessages
        = prevMessages ++ [{ text := assistantMessage, isUser := false }] ∨
      ∃ init last, prevMessages = init ++ [last] ∧
        chunkUpdate assistantMessage prevMessages
          = init ++ [{ text := assistantMessage, isUser := false }] := by
    rcases eq_nil_or_concat prevMessages with hp | ⟨init, last, hp⟩
    · exact Or.inl (hU (Or.inl hp))
    · cases hl : last.isUser
      · exact Or.inr ⟨init, last, hp, hA init last hp hl⟩
      · exact Or.inl (hU (Or.inr ⟨init, last, hp, hl⟩))
  refine ⟨?_, ?_, ?_, hU, ?_⟩
  · rcases hcases with hc | ⟨init, last, hp, hc⟩
    · rw [hc]; simp
    · rw [hc, hp]; simp
  · intro i hi
    rcases hcases with hc | ⟨init, last, hp, hc⟩
    · rw [hc, List.getElem?_append_left (by omega)]
    · rw [hc, hp]
      have hi2 : i < init.length := by
        rw [hp] at hi
        simp at hi
        omega
      rw [List.getElem?_append_left hi2, List.getElem?_append_left hi2]
  · intro init last hp hl
    refine ⟨?_, hA init last hp hl⟩
    rw [hA init last hp hl, hp]
    simp
  · intro newMessage
    refine ⟨rfl, by simp [appendMessage], ?_⟩
    intro i hi
    simp only [appendMessage]
    rw [List.getElem?_append_left hi]

/-! ## The controls -/

/-- C9.  In every state the input box is disabled exactly when `isListening` or
`isSpeaking` is true, the mic control exactly when `isSpeaking` is true, and the
send control exactly when `isListening`, `isSpeaking` or `isLoading` is true. -/
theorem controls_disabled (s : State) :
    (inputDisabled s = true ↔ (s.isListening = true ∨ s.isSpeaking = true)) ∧
    (micDisabled s = true ↔ s.isSpeaking = true) ∧
    (sendDisabled s = true ↔
      (s.isListening = true ∨ s.isSpeaking = true ∨ s.isLoading = true)) := by
  simp [inputDisabled, micDisabled, sendDisabled, or_assoc]

/-! ## One invocation followed to its end -/

theorem feed_append (s : State) (p : Option Pending) (xs ys : List Signal) :
    feed s p (xs ++ ys) = feed (feed s p xs).1 (feed s p xs).2 ys := by
  induction xs generalizing s p with
  | nil => cases p <;> simp [feed]
  | cons x xs ih =>
    cases p with
    | none => cases ys <;> simp [feed]
    | some q => simp [feed, ih]

theorem foldl_append_assoc (buf : String) (chunks : List String) :
    chunks.foldl (fun r c => r ++ c) buf = buf ++ String.join chunks := by
  induction chunks generalizing buf with
  | nil => simp [String.join]
  | cons c cs ih =>
    simp only [List.foldl_cons, String.join]
    rw [ih (buf ++ c), ih ("" ++ c), String.append_assoc]
    simp

theorem join_cons (c : String) (cs : List String) :
    String.join (c :: cs) = c ++ String.join cs := by
  simp only [String.join, List.foldl_cons]
  rw [foldl_append_assoc]
  simp [String.join]

/-- Reading chunks while the last message is the assistant message that holds
the buffer: only that message changes, and it holds the grown buffer. -/
theorem feed_chunkReads_assistant (chunks : List String) (s : State) (base : List Message)
    (buf : String) (h : s.messages = base ++ [{ text := buf, isUser := false }]) :
    feed s (some (.reading buf)) (chunkReads chunks)
      = ({ s with messages := base ++ [{ text := buf ++ String.join chunks, isUser := false }] },
         some (.reading (buf ++ String.join chunks))) := by
  induction chunks generalizing s buf with
  | nil =>
    simp only [chunkReads, List.map_nil, feed, String.join, List.foldl_nil, String.append_empty]
    rw [← h]
  | cons c cs ih =>
    have hstep : feed s (some (.reading buf)) (chunkReads (c :: cs))
        = feed { s with messages := base ++ [{ text := buf ++ c, isUser := false }] }
            (some (.reading (buf ++ c))) (chunkReads cs) := by
      simp [chunkReads, feed, resume, decode, exec, applyAction, h,
        chunkUpdate_concat_assistant]
    rw [hstep, ih _ (buf ++ c) rfl, join_cons, String.append_assoc]

/-- The state once the response has arrived and the given chunks are read. -/
theorem sendThen_chunks (s : State) (h : jsTrim s.inputText ≠ "") (chunks : List String) :
    sendThen s ([.response true true] ++ chunkReads chunks)
      = ({ s with
            messages := s.messages ++ [{ text := s.inputText, isUser := true }]
              ++ (if chunks = [] then []
                  else [{ text := String.join chunks, isUser := false }]),
            inputText := "", isLoading := true,
            fetches := s.fetches ++ [chatRequest s.inputText] },
         some (.reading (String.join chunks))) := by
  cases chunks with
  | nil =>
    simp [sendThen, handleSendMessage_of_nonblank s.inputText h, chunkReads, feed, resume, exec,
      applyAction, appendMessage, String.join]
  | cons c cs =>
    have hstep : sendThen s ([.response true true] ++ chunkReads (c :: cs))
        = feed { s with
              messages := s.messages ++ [{ text := s.inputText, isUser := true }]
                ++ [{ text := c, isUser := false }],
              inputText := "", isLoading := true,
              fetches := s.fetches ++ [chatRequest s.inputText] }
            (some (.reading c)) (chunkReads cs) := by
      simp [sendThen, handleSendMessage_of_nonblank s.inputText h, chunkReads, feed, resume,
        decode, exec, applyAction, appendMessage, chunkUpdate_concat_user]
    rw [hstep, feed_chunkReads_assistant cs _
      (s.messages ++ [{ text := s.inputText, isUser := true }]) c rfl, join_cons]
    simp

/-- The state when `handleSendMessage` has returned after a streamed response. -/
theorem sendThen_stream (s : State) (h : jsTrim s.inputText ≠ "") (chunks : List String) :
    sendThen s (Outcome.stream chunks).signals
      = ({ s with
            messages := s.messages ++ [{ text := s.inputText, isUser := true },
              { text := String.join chunks, isUser := false }],
            inputText := "", isLoading := false, isSpeaking := true,
            fetches := s.fetches ++ [chatRequest s.inputText],
            spoken := s.spoken ++ [String.join chunks] },
         none) := by
  have hsplit : sendThen s (Outcome.stream chunks).signals
      = feed (sendThen s ([.response true true] ++ chunkReads chunks)).1
          (sendThen s ([.response true true] ++ chunkReads chunks)).2 [endRead] := by
    simp only [sendThen, Outcome.signals]
    rw [feed_append]
  rw [hsplit, sendThen_chunks s h chunks]
  by_cases hc : chunks = []
  · subst hc
    simp [feed, resume, endRead, decode, speak, exec, applyAction, String.join,
      chunkUpdate_concat_user]
  · have hlast := chunkUpdate_concat_assistant (String.join chunks)
      (s.messages ++ [{ text := s.inputText, isUser := true }])
      { text := String.join chunks, isUser := false } rfl
    simp only [List.append_assoc, List.singleton_append] at hlast
    simp [feed, resume, endRead, decode, speak, exec, applyAction, hc, hlast]

/-! ## Streaming, speaking, failing -/

/-- C1.  For messages `M` and a draft `d` whose trimmed text is non-empty, with
this invocation the only one running: once the response has arrived and the
first `k` chunks are read (`1 ≤ k ≤ n`), `messages` is `M`, the user message for
`d`, and one assistant message whose text is `c1 + ... + ck`; when the stream has
ended and the function has returned, `messages` is `M`, the user message, and one
assistant message `{ text: c1 + ... + cn, isUser: false }`. -/
theorem stream_builds_one_assistant_message (s : State) (chunks : List String)
    (h : jsTrim s.inputText ≠ "") :
    (∀ k, 1 ≤ k → k ≤ chunks.length →
      (sendThen s ([.response true true] ++ chunkReads (chunks.take k))).1.messages
        = s.messages ++ [{ text := s.inputText, isUser := true },
            { text := String.join (chunks.take k), isUser := false }]) ∧
    (sendThen s (Outcome.stream chunks).signals).1.messages
      = s.messages ++ [{ text := s.inputText, isUser := true },
          { text := String.join chunks, isUser := false }] ∧
    (sendThen s (Outcome.stream chunks).signals).2 = none := by
  refine ⟨?_, ?_, ?_⟩
  · intro k hk hkn
    have hne : chunks.take k ≠ [] := by
      intro h0
      have hlen : (chunks.take k).length = k := by
        rw [List.length_take]; omega
      rw [h0] at hlen
      simp at hlen
      omega
    rw [sendThen_chunks s h]
    simp [hne]
  · rw [sendThen_stream s h]
  · rw [sendThen_stream s h]

/-- The draft "Hello" answered by the chunks "Hi" and " there". -/
theorem stream_builds_one_assistant_message_witness :
    (sendThen { State.initial with inputText := "Hello" }
        ([.response true true] ++ chunkReads (["Hi", " there"].take 1))).1.messages
      = State.initial.messages ++ [{ text := "Hello", isUser := true },
          { text := String.join (["Hi", " there"].take 1), isUser := false }] ∧
    (sendThen { State.initial with inputText := "Hello" }
        (Outcome.stream ["Hi", " there"]).signals).1.messages
      = State.initial.messages ++ [{ text := "Hello", isUser := true },
          { text := String.join ["Hi", " there"], isUser := false }] :=
  have w := stream_builds_one_assistant_message { State.initial with inputText := "Hello" }
    ["Hi", " there"] (by decide)
  ⟨w.1 1 (by decide) (by decide), w.2.1⟩

/-- C6.  For a draft that passes the guard and a success response streaming
`c1..cn`: `speechSynthesis.speak` has not been called when the request is
issued, nor after any number of chunks has been read; when the function has
returned it has been called exactly once, with `c1 + ... + cn`, which is the text
of the last message, an assistant message.  `speak` sets `isSpeaking` to true
before handing the utterance over, the flag is true when the function returns,
and the utterance's `onend` callback sets it to false. -/
theorem speaks_once_at_stream_end (s : State) (chunks : List String)
    (h : jsTrim s.inputText ≠ "") :
    (sendThen s []).1.spoken = s.spoken ∧
    (∀ k, (sendThen s ([.response true true] ++ chunkReads (chunks.take k))).1.spoken
        = s.spoken) ∧
    (sendThen s (Outcome.stream chunks).signals).1.spoken = s.spoken ++ [String.join chunks] ∧
    (sendThen s (Outcome.stream chunks).signals).1.messages.getLast?
      = some { text := String.join chunks, isUser := false } ∧
    (∀ text, speak text = [.setIsSpeaking true, .speechSynthesisSpeak text]) ∧
    (sendThen s (Outcome.stream chunks).signals).1.isSpeaking = true ∧
    (exec (sendThen s (Outcome.stream chunks).signals).1 utteranceOnEnd).isSpeaking = false := by
  refine ⟨?_, ?_, ?_, ?_, fun _ => rfl, ?_, ?_⟩
  · simp [sendThen, handleSendMessage_of_nonblank s.inputText h, feed, exec, applyAction]
  · intro k
    rw [sendThen_chunks s h]
  · rw [sendThen_stream s h]
  · rw [sendThen_stream s h]
    simp
  · rw [sendThen_stream s h]
  · rw [sendThen_stream s h]
    simp [exec, utteranceOnEnd, applyAction]

/-- The draft "Hello" answered by "Hi" and " there": one utterance, "Hi there". -/
theorem speaks_once_at_stream_end_witness :
    (sendThen { State.initial with inputText := "Hello" }
        (Outcome.stream ["Hi", " there"]).signals).1.spoken
      = State.initial.spoken ++ [String.join ["Hi", " there"]] :=
  (speaks_once_at_stream_end { State.initial with inputText := "Hello" }
    ["Hi", " there"] (by decide)).2.2.1

/-- C5.  For a draft that passes the guard: when `fetch` rejects with an error
whose message is `message`, or the response has a non-success status (the error
thrown is `Error("Something went wrong!")`), the function returns with exactly
one more toast, `{ title: "Error", description: <that message>, status: "error",
duration: 5000, isClosable: true }`, with `isLoading` false, and with everything
else as it was when the request was issued: `messages` is the earlier messages
followed by the user message, and `speechSynthesis.speak` has not been called. -/
theorem failure_shows_one_toast (s : State) (h : jsTrim s.inputText ≠ "") :
    (∀ message, sendThen s (Outcome.networkError message).signals
      = ({ (sendThen s []).1 with
            toasts := s.toasts ++
              [{ title := "Error", description := message, status := "error",
                 duration := 5000, isClosable := true }],
            isLoading := false }, none)) ∧
    (∀ hasBody, sendThen s (Outcome.failureStatus hasBody).signals
      = ({ (sendThen s []).1 with
            toasts := s.toasts ++
              [{ title := "Error", description := "Something went wrong!", status := "error",
                 duration := 5000, isClosable := true }],
            isLoading := false }, none)) ∧
    (sendThen s []).1.messages = s.messages ++ [{ text := s.inputText, isUser := true }] ∧
    (sendThen s []).1.spoken = s.spoken ∧
    (sendThen s []).1.toasts = s.toasts := by
  refine ⟨?_, ?_, ?_, ?_, ?_⟩
  · intro message
    simp [sendThen, Outcome.signals, handleSendMessage_of_nonblank s.inputText h, feed, resume,
      catchBlock, exec, applyAction]
  · intro hasBody
    simp [sendThen, Outcome.signals, handleSendMessage_of_nonblank s.inputText h, feed, resume,
      catchBlock, exec, applyAction]
  · simp [sendThen, handleSendMessage_of_nonblank s.inputText h, feed, exec, applyAction,
      appendMessage]
  · simp [sendThen, handleSendMessage_of_nonblank s.inputText h, feed, exec, applyAction]
  · simp [sendThen, handleSendMessage_of_nonblank s.inputText h, feed, exec, applyAction]

/-- The draft "Hello" answered by a failure status. -/
theorem failure_shows_one_toast_witness :
    (sendThen { State.initial with inputText := "Hello" }
        (Outcome.failureStatus true).signals).1.toasts
      = [{ title := "Error", description := "Something went wrong!", status := "error",
           duration := 5000, isClosable := true }] ∧
    (sendThen { State.initial with inputText := "Hello" }
        (Outcome.failureStatus true).signals).1.isLoading = false :=
  have w := (failure_shows_one_toast { State.initial with inputText := "Hello" }
    (by decide)).2.1 true
  ⟨by rw [w]; rfl, by rw [w]⟩

/-- C10 at its failing input.  With the draft "Hello" and a success response
whose `body` is null, `handleSendMessage` has returned (nothing is suspended) and
`isLoading` is still true: the `return` of line 44 leaves the function before
`setIsLoading(false)`.  For the same draft a network error, a failure status and
a streamed body all end with `isLoading` false. -/
theorem noBody_leaves_isLoading_true :
    sendThen { State.initial with inputText := "Hello" } Outcome.noBody.signals
      = ({ State.initial with
            messages := [{ text := "Hello", isUser := true }],
            isLoading := true,
            fetches := [chatRequest "Hello"] }, none) ∧
    sendDisabled (sendThen { State.initial with inputText := "Hello" }
      Outcome.noBody.signals).1 = true ∧
    (sendThen { State.initial with inputText := "Hello" }
      (Outcome.networkError "Failed to fetch").signals).1.isLoading = false ∧
    (sendThen { State.initial with inputText := "Hello" }
      (Outcome.failureStatus true).signals).1.isLoading = false ∧
    (sendThen { State.initial with inputText := "Hello" }
      (Outcome.stream ["Hi", " there"]).signals).1.isLoading = false := by
  decide

/-- Whatever the transcript, a request issued by the `onresult` callback carries
the draft its closure holds, and the callback issues one only when the
class-level `abort` call returns and that draft has a non-empty trim. -/
theorem onresult_actions (b : Browser) (inputText transcript : String) :
    (onresult b inputText transcript).actions
      = [.setInputText transcript, .setIsListening false]
        ++ (if b.classAbortCallable = true ∧ jsTrim inputText ≠ "" then
              [ .setMessagesAppend { text := inputText, isUser := true },
                .setInputText "", .setIsLoading true, .fetch (chatRequest inputText) ]
            else []) := by
  cases hb : b.classAbortCallable
  · simp [onresult, stopListening, hb]
  · by_cases ht : jsTrim inputText ≠ ""
    · simp [onresult, stopListening, hb, handleSendMessage_of_nonblank inputText ht, ht]
    · have hr : handleSendMessage inputText = { actions := [], next := none } := by
        simp [handleSendMessage, ht]
      simp [onresult, stopListening, hb, hr, ht]

/-- C3 at its failing input.  The mic is activated with an empty draft and the
transcriber yields "What time is it".  Whether or not the class-level `abort`
call returns, and whatever the library does with `disabled`, the draft is set to
the transcript and `isListening` is false, but no message is appended and no
request is issued.  With the draft "old" held at activation and an `abort` call
that returns, the message appended and the request issued carry "old", not the
transcript. -/
theorem transcript_is_not_sent (k : Toolkit) :
    (run ⟨false⟩ k Machine.initial [.micClick, .result 0 "What time is it"]).page
      = { State.initial with inputText := "What time is it", started := 1 } ∧
    (run ⟨true⟩ k Machine.initial [.micClick, .result 0 "What time is it"]).page
      = { State.initial with inputText := "What time is it", started := 1 } ∧
    (run ⟨true⟩ k Machine.initial [.micClick, .result 0 "What time is it"]).pending = [] ∧
    (run ⟨true⟩ k Machine.initial
        [.typing "old", .micClick, .result 0 "What time is it"]).page.messages
      = [{ text := "old", isUser := true }] ∧
    (run ⟨true⟩ k Machine.initial
        [.typing "old", .micClick, .result 0 "What time is it"]).page.fetches
      = [chatRequest "old"] := by
  obtain ⟨hi, hb⟩ := k
  cases hi <;> cases hb <;> decide

/-! ## Request gating -/

theorem resume_next_some_isLoading (s : State) (p q : Pending) (signal : Signal)
    (h : (resume p signal).next = some q) :
    (exec s (resume p signal).actions).isLoading = s.isLoading := by
  cases p with
  | awaitingResponse =>
    cases signal with
    | fetchRejected message => simp [resume] at h
    | response ok hasBody =>
      cases ok <;> cases hasBody <;> simp [resume, exec] at h ⊢
    | read value doneReading => simp [resume, exec]
    | readRejected message => simp [resume, exec]
  | reading assistantMessage =>
    cases signal with
    | fetchRejected message => simp [resume, exec]
    | response ok hasBody => simp [resume, exec]
    | read value doneReading =>
      cases doneReading
      · simp [resume, exec, applyAction]
      · simp [resume] at h
    | readRejected message => simp [resume] at h

theorem launch_handleSendMessage_singleFlight (m : Machine) (inputText : String)
    (hp : m.pending = []) : SingleFlight (m.launch (handleSendMessage inputText)) := by
  by_cases ht : jsTrim inputText ≠ ""
  · rw [handleSendMessage_of_nonblank inputText ht]
    simp [SingleFlight, Machine.launch, hp, exec, applyAction]
  · have hr : handleSendMessage inputText = { actions := [], next := none } := by
      simp [handleSendMessage, ht]
    rw [hr]
    simp [SingleFlight, Machine.launch, hp, exec]

theorem launch_onresult_singleFlight (b : Browser) (m : Machine) (inputText transcript : String)
    (hm : SingleFlight m)
    (hg : b.classAbortCallable = false ∨ m.page.isLoading = false) :
    SingleFlight (m.launch (onresult b inputText transcript)) := by
  obtain ⟨hlen, hload⟩ := hm
  cases hb : b.classAbortCallable
  · simpa [SingleFlight, Machine.launch, onresult, stopListening, hb, exec, applyAction]
      using And.intro hlen hload
  · have hl : m.page.isLoading = false := by
      rcases hg with hg | hg
      · rw [hb] at hg; cases hg
      · exact hg
    have hp : m.pending = [] := by
      by_contra hne
      rw [hload hne] at hl
      cases hl
    by_cases ht : jsTrim inputText ≠ ""
    · simp [SingleFlight, Machine.launch, onresult, stopListening, hb,
        handleSendMessage_of_nonblank inputText ht, hp, exec, applyAction]
    · have hr : handleSendMessage inputText = { actions := [], next := none } := by
        simp [handleSendMessage, ht]
      simp [SingleFlight, Machine.launch, onresult, stopListening, hb, hr, hp, exec,
        applyAction]

theorem step_singleFlight (b : Browser) (k : Toolkit) (m : Machine) (e : Event)
    (hm : SingleFlight m) (hg : gated b k m e = true) : SingleFlight (step b k m e) := by
  have hm0 := hm
  obtain ⟨hlen, hload⟩ := hm
  cases e with
  | typing value =>
    simp only [step]
    split
    · exact hm0
    · exact ⟨hlen, by simpa [exec, handleInputChange, applyAction] using hload⟩
  | sendClick =>
    simp only [step]
    split
    · exact hm0
    · rename_i hd
      have hl : m.page.isLoading = false := by
        simp only [gated, Bool.or_eq_true] at hg
        rcases hg with hg | hg
        · exact absurd hg hd
        · simpa using hg
      have hp : m.pending = [] := by
        by_contra hne
        rw [hload hne] at hl
        cases hl
      exact launch_handleSendMessage_singleFlight m _ hp
  | micClick =>
    simp only [step]
    split
    · exact hm0
    · split
      · exact ⟨hlen, by simpa [exec, stopListening, applyAction] using hload⟩
      · exact ⟨hlen, by simpa [exec, startListening, applyAction] using hload⟩
  | result recognition transcript =>
    simp only [step]
    split
    · exact hm0
    · apply launch_onresult_singleFlight b m _ _ hm0
      simp [gated] at hg
      exact hg
  | settle invocation signal =>
    simp only [step]
    split
    · exact hm0
    · rename_i p hget
      have hshape : m.pending = [p] ∧ invocation = 0 := by
        match hpd : m.pending with
        | [] => rw [hpd] at hget; simp at hget
        | [q] =>
          rw [hpd] at hget
          cases invocation with
          | zero => simp at hget; exact ⟨by rw [hget], rfl⟩
          | succ n => simp at hget
        | _ :: _ :: _ => rw [hpd] at hlen; simp at hlen
      obtain ⟨hpd, hinv⟩ := hshape
      subst hinv
      have hl : m.page.isLoading = true := hload (by rw [hpd]; simp)
      cases hnext : (resume p signal).next with
      | none => simp [SingleFlight, hpd]
      | some q =>
        have hkeep := resume_next_some_isLoading m.page p q signal hnext
        simp [SingleFlight, hpd, hkeep, hl]
  | utteranceEnd =>
    simp only [step]
    split
    · exact ⟨hlen, by simpa [exec, utteranceOnEnd, applyAction] using hload⟩
    · exact hm0

theorem run_singleFlight (b : Browser) (k : Toolkit) (events : List Event) :
    ∀ m, SingleFlight m → gatedRun b k m events = true → SingleFlight (run b k m events) := by
  induction events with
  | nil => intro m hm _; exact hm
  | cons e es ih =>
    intro m hm hg
    simp only [gatedRun, Bool.and_eq_true] at hg
    exact ih (step b k m e) (step_singleFlight b k m e hm hg.1) hg.2

/-- Where the class-level `abort` call throws and the library keeps a disabled
button from firing, every run is gated: the `disabled` expression of the send
control (line 162) covers `isLoading`. -/
theorem gatedRun_of_blocking (b : Browser) (k : Toolkit) (hb : b.classAbortCallable = false)
    (hk : k.buttonHonoursDisabled = true) (events : List Event) :
    ∀ m, gatedRun b k m events = true := by
  induction events with
  | nil => intro m; rfl
  | cons e es ih =>
    intro m
    simp only [gatedRun, Bool.and_eq_true]
    refine ⟨?_, ih _⟩
    cases e <;> simp [gated, hb, hk, sendDisabled]
    cases m.page.isLoading <;> simp

/-- C4 as the code has it.  `handleSendMessage` is entered from a delivered send
click and from a transcript-result handler that gets past the `abort` call.  In
every state reached from the initial one by typing, send clicks, mic clicks,
transcript results, chunk arrivals, stream ends, request failures and utterance
ends, such that each entry into `handleSendMessage` happens while `isLoading` is
false, at most one invocation of `handleSendMessage` is suspended, that is, at
most one chat request is in flight, and while one is, `isLoading` is true. -/
theorem gated_runs_keep_one_request (b : Browser) (k : Toolkit) (events : List Event)
    (h : gatedRun b k Machine.initial events = true) :
    (run b k Machine.initial events).pending.length ≤ 1 ∧
    ((run b k Machine.initial events).pending ≠ [] →
      (run b k Machine.initial events).page.isLoading = true) := by
  have h0 : SingleFlight Machine.initial := by
    simp [SingleFlight, Machine.initial]
  exact run_singleFlight b k events Machine.initial h0 h

/-- A throwing `abort` and a send control that fires although disabled: "a" is
sent and answered in full, then "b" is typed and sent.  The second click
arrives with `isLoading` false; one request is in flight afterwards. -/
theorem gated_runs_keep_one_request_witness :
    (run ⟨false⟩ ⟨true, false⟩ Machine.initial
      [.typing "a", .sendClick, .settle 0 (.response true true),
       .settle 0 (.read (some "Hi") false), .settle 0 (.read none true), .utteranceEnd,
       .typing "b", .sendClick]).pending.length ≤ 1 :=
  (gated_runs_keep_one_request ⟨false⟩ ⟨true, false⟩
    [.typing "a", .sendClick, .settle 0 (.response true true),
     .settle 0 (.read (some "Hi") false), .settle 0 (.read none true), .utteranceEnd,
     .typing "b", .sendClick] (by decide)).1

/-- C4 as stated fails.  `handleSendMessage` does not test `isLoading`, and the
page only hands `disabled` to the library's button.  With a throwing `abort` and
a send control that fires although disabled: after "a" is sent and "b" is typed,
`isLoading` is true, the send control's `disabled` prop is true and one request
is in flight; a further send click appends the message "b", empties the draft
and issues a second request, so two requests are in flight.  The run is not a
gated one. -/
theorem loading_does_not_gate_handleSendMessage :
    (run ⟨false⟩ ⟨true, false⟩ Machine.initial
      [.typing "a", .sendClick, .typing "b"]).page
      = { State.initial with
            messages := [{ text := "a", isUser := true }], inputText := "b",
            isLoading := true, fetches := [chatRequest "a"] } ∧
    sendDisabled (run ⟨false⟩ ⟨true, false⟩ Machine.initial
      [.typing "a", .sendClick, .typing "b"]).page = true ∧
    (run ⟨false⟩ ⟨true, false⟩ Machine.initial
      [.typing "a", .sendClick, .typing "b"]).pending.length = 1 ∧
    (run ⟨false⟩ ⟨true, false⟩ Machine.initial
      [.typing "a", .sendClick, .typing "b", .sendClick]).page
      = { State.initial with
            messages := [{ text := "a", isUser := true }, { text := "b", isUser := true }],
            inputText := "", isLoading := true,
            fetches := [chatRequest "a", chatRequest "b"] } ∧
    (run ⟨false⟩ ⟨true, false⟩ Machine.initial
      [.typing "a", .sendClick, .typing "b", .sendClick]).pending.length = 2 ∧
    gatedRun ⟨false⟩ ⟨true, false⟩ Machine.initial
      [.typing "a", .sendClick, .typing "b", .sendClick] = false := by
  decide

end VoiceChat
